import Mathlib

/-!
# Verification of the VAT calculator core

Shallow embedding of the VAT calculator (rounding policy, VAT engine,
history store, auto-save controller) over exact rational arithmetic.

Numeric modelling choices:
* JavaScript numbers are modelled by `ℚ`.  `Math.round` is modelled by
  `jsRound x = ⌊x + 1/2⌋`, the exact rational counterpart of the
  ECMAScript semantics (nearest integer, ties towards +∞).
* `Number.EPSILON` is the exact rational `2⁻⁵²`.
* Where a claim is specifically about a value that is not exactly
  representable in binary floating point (the sum `0.1 + 0.2`), the exact
  rational value of the IEEE-754 double produced by the source's
  arithmetic is used as the input.
-/

attribute [local semireducible] Rat.add Rat.mul Rat.sub Rat.inv Rat.ofScientific

/-- `Number.EPSILON`, the exact value `2⁻⁵²`. -/
def EPSILON : ℚ := 1 / 2 ^ 52

/-- Model of JavaScript `Math.round`: the integer closest to `x`,
with ties rounding towards positive infinity, i.e. `⌊x + 1/2⌋`. -/
def jsRound (x : ℚ) : ℤ := ⌊x + 1 / 2⌋

/-- From `src/utils/math.ts`, `roundToDecimal`:
`Math.round((value + Number.EPSILON) * multiplier) / multiplier` with
`multiplier = 10^decimals`.  The source's default argument `decimals = 2`
is passed explicitly at every call site. -/
def roundToDecimal (value : ℚ) (decimals : ℕ) : ℚ :=
  let multiplier : ℚ := 10 ^ decimals
  (jsRound ((value + EPSILON) * multiplier) : ℚ) / multiplier

/-- From `src/utils/math.ts`: `CalculationMode = 'add' | 'extract'`. -/
inductive CalculationMode where
  | add : CalculationMode
  | extract : CalculationMode
deriving DecidableEq

/-- From `src/utils/math.ts`: the `CalculationResult` record. -/
structure CalculationResult where
  mode : CalculationMode
  vatRate : ℚ
  priceExcludingVat : ℚ
  vatAmount : ℚ
  priceIncludingVat : ℚ
  timestamp : ℤ
deriving DecidableEq

/-- From `src/utils/math.ts`, `addVat`.  A thrown `Error` is modelled as
`Except.error` carrying the source's message; `Date.now()` is passed in
as the explicit argument `now`. -/
def addVat (price : ℚ) (vatRate : ℚ) (now : ℤ) :
    Except String CalculationResult :=
  if price < 0 then
    Except.error "Price cannot be negative"
  else if vatRate < 0 ∨ vatRate > 100 then
    Except.error "VAT rate must be between 0 and 100"
  else
    let priceExcludingVat := roundToDecimal price 2
    let vatAmount := roundToDecimal (price * (vatRate / 100)) 2
    let priceIncludingVat := roundToDecimal (priceExcludingVat + vatAmount) 2
    Except.ok ⟨CalculationMode.add, vatRate, priceExcludingVat, vatAmount,
      priceIncludingVat, now⟩

/-- From `src/utils/math.ts`, `extractVat`. -/
def extractVat (total : ℚ) (vatRate : ℚ) (now : ℤ) :
    Except String CalculationResult :=
  if total < 0 then
    Except.error "Total price cannot be negative"
  else if vatRate < 0 ∨ vatRate > 100 then
    Except.error "VAT rate must be between 0 and 100"
  else
    let priceIncludingVat := roundToDecimal total 2
    let priceExcludingVat := roundToDecimal (total / (1 + vatRate / 100)) 2
    let vatAmount := roundToDecimal (priceIncludingVat - priceExcludingVat) 2
    Except.ok ⟨CalculationMode.extract, vatRate, priceExcludingVat, vatAmount,
      priceIncludingVat, now⟩

/-- From `src/utils/math.ts`, `calculateVat`: pure dispatch by mode. -/
def calculateVat (amount : ℚ) (vatRate : ℚ) (mode : CalculationMode)
    (now : ℤ) : Except String CalculationResult :=
  match mode with
  | CalculationMode.add => addVat amount vatRate now
  | CalculationMode.extract => extractVat amount vatRate now

/-- The exact rational value of the IEEE-754 double obtained by computing
`0.1 + 0.2` in JavaScript: `0.1` is the double `3602879701896397 / 2⁵⁵`,
`0.2` is `3602879701896397 / 2⁵⁴`, and their correctly rounded double sum
is `5404319552844596 / 2⁵⁴ = 0.30000000000000004…`. -/
def jsSumPointOnePointTwo : ℚ := 5404319552844596 / 2 ^ 54

/-- From the history store (`useHistoryStore`): `maxHistorySize`. -/
def maxHistorySize : ℕ := 10

/-- From the history store, `addCalculation`: prepend the new calculation
and drop the last (oldest) entry when the bound is exceeded
(`newHistory.pop()` removes the final array element). -/
def addCalculation (calculation : CalculationResult)
    (history : List CalculationResult) : List CalculationResult :=
  let newHistory := calculation :: history
  if newHistory.length > maxHistorySize then newHistory.dropLast
  else newHistory

/-- From the history store, `clearHistory`. -/
def clearHistory (_history : List CalculationResult) :
    List CalculationResult := []

/-- The input grammar enforced by `handleSetAmount` / `handleSetVatRate`:
the regular expression `^\d*\.?\d*$` (digits with at most one dot),
which also accepts the empty string. -/
def validInput (s : String) : Bool :=
  let cs := s.toList
  cs.all (fun c => c.isDigit || c = '.') &&
    (cs.filter (fun c => c = '.')).length ≤ 1

/-- Value of a digit string read left to right. -/
def digitsVal (l : List Char) : ℕ :=
  l.foldl (fun acc c => 10 * acc + (c.toNat - 48)) 0

/-- Model of JavaScript `parseFloat` on the field contents.  The fields
only ever hold strings of the grammar `^\d*\.?\d*$` (enforced by the
setters, and the initial contents `''` / `'7.5'` match it); on that
grammar `parseFloat` returns NaN exactly when the string contains no
digit (`''` or `'.'`), and otherwise the denoted non-negative decimal.
NaN is modelled as `none`.  Strings outside the grammar (unreachable as
field contents) are conservatively mapped to `none`. -/
def parseDecimal (s : String) : Option ℚ :=
  let cs := s.toList
  if (cs.all (fun c => c.isDigit || c = '.') &&
      (cs.filter (fun c => c = '.')).length ≤ 1 &&
      cs.any (fun c => c.isDigit)) then
    let intPart := cs.takeWhile (fun c => c ≠ '.')
    let fracPart := (cs.dropWhile (fun c => c ≠ '.')).drop 1
    some ((digitsVal intPart : ℚ) + (digitsVal fracPart : ℚ) / 10 ^ fracPart.length)
  else
    none

/-- The ContentKey produced by `createCalculationKey`:
`` `${excl.toFixed(2)}-${vatRate}-${mode}-${incl.toFixed(2)}` ``.
The string is modelled by the tuple of its components; the two monetary
components are taken through `toFixed(2)` (here: the integer number of
cents after rounding to 2 decimals), mirroring that the string fixes
them to 2 decimal places. -/
structure ContentKey where
  excl : ℤ
  rate : ℚ
  mode : CalculationMode
  incl : ℤ
deriving DecidableEq

/-- `Number.prototype.toFixed(2)` on an exact rational: the integer `n`
with `n / 100` closest to `x`, larger `n` on ties. -/
def toFixedTwo (x : ℚ) : ℤ := ⌊x * 100 + 1 / 2⌋

/-- From the hook, `createCalculationKey`. -/
def createCalculationKey (calcResult : CalculationResult)
    (calcMode : CalculationMode) : ContentKey :=
  ⟨toFixedTwo calcResult.priceExcludingVat, calcResult.vatRate, calcMode,
    toFixedTwo calcResult.priceIncludingVat⟩

/-- From the hook, `DEFAULT_VAT_RATE`. -/
def DEFAULT_VAT_RATE : String := "7.5"

/-- The state owned by `useVatCalculator`: the four `useState` slots, the
mutable refs, and (since the hook is the only writer) the history store
contents.  `lastSavedKeyRef` starts as the empty string, which equals no
real key, so it is modelled as `Option ContentKey` with `none` initial;
`debounceTimerRef` is modelled by whether a timer is pending. -/
structure CalcState where
  amount : String
  vatRate : String
  mode : CalculationMode
  result : Option CalculationResult
  lastSavedKey : Option ContentKey
  lastValidResult : Option (CalculationResult × ContentKey)
  pendingTimer : Bool
  latestAmount : String
  latestVatRate : String
  latestMode : CalculationMode
  latestResult : Option CalculationResult
  history : List CalculationResult
deriving DecidableEq

/-- From the hook, `saveCalculation`: skip when the key equals the last
saved key, otherwise append to the store and remember the key.  Returns
the new state together with the source's boolean return value. -/
def saveCalculation (calcResult : CalculationResult) (key : ContentKey)
    (s : CalcState) : CalcState × Bool :=
  if s.lastSavedKey = some key then (s, false)
  else
    ({ s with
        history := addCalculation calcResult s.history,
        lastSavedKey := some key }, true)

/-- From the hook, `performCalculation`: parse and validate both fields,
compute via `calculateVat`, publish the result and refresh the latest
refs, and record the last valid result when the amount is positive.
`parseFloat` of an empty field is NaN, so the two emptiness disjuncts of
the source's guard are subsumed by the parse failing; they are kept for
fidelity.  The `try/catch` around `calculateVat` maps a thrown error to
a cleared result, as in the source's `catch` branch. -/
def performCalculation (now : ℤ) (s : CalcState) : CalcState :=
  match parseDecimal s.amount, parseDecimal s.vatRate with
  | some amountNum, some vatRateNum =>
    if amountNum < 0 ∨ vatRateNum < 0 ∨ vatRateNum > 100 ∨
        s.amount = "" ∨ s.vatRate = "" then
      { s with result := none }
    else
      match calculateVat amountNum vatRateNum s.mode now with
      | Except.error _ => { s with result := none, latestResult := none }
      | Except.ok calculationResult =>
        let s1 := { s with
          result := some calculationResult,
          latestAmount := s.amount,
          latestVatRate := s.vatRate,
          latestMode := s.mode,
          latestResult := some calculationResult }
        if amountNum > 0 then
          let key := createCalculationKey calculationResult s.mode
          { s1 with lastValidResult := some (calculationResult, key) }
        else s1
  | _, _ => { s with result := none }

/-- From the hook, `saveToHistory`: requires a displayed result and a
source amount parsing to a strictly positive number, then commits with
duplicate suppression via `saveCalculation`. -/
def saveToHistory (s : CalcState) : CalcState :=
  match s.result with
  | none => s
  | some result =>
    match parseDecimal s.amount with
    | none => s
    | some amountNum =>
      if amountNum ≤ 0 then s
      else (saveCalculation result (createCalculationKey result s.mode) s).1

/-- From the hook, `scheduleAutoSave`: cancel any existing timer and
start a new one, so exactly one timer is pending afterwards. -/
def scheduleAutoSave (s : CalcState) : CalcState :=
  { s with pendingTimer := true }

/-- The body of the `setTimeout` callback in `scheduleAutoSave`, run when
the debounce timer fires: read the latest refs, apply the eligibility
checks and the duplicate check, and commit.  Every exit path clears
`debounceTimerRef`.  A fire only happens while a timer is pending. -/
def timerFire (s : CalcState) : CalcState :=
  if s.pendingTimer = false then s
  else
    let s0 := { s with pendingTimer := false }
    match s0.latestResult with
    | none => s0
    | some currentResult =>
      match parseDecimal s0.latestAmount with
      | none => s0
      | some amountNum =>
        if amountNum ≤ 0 then s0
        else
          let key := createCalculationKey currentResult s0.latestMode
          if s0.lastSavedKey = some key then s0
          else (saveCalculation currentResult key s0).1

/-- From the hook, `handleAmountBlur`: cancel the debounce timer, then
`saveToHistory`. -/
def handleAmountBlur (s : CalcState) : CalcState :=
  saveToHistory { s with pendingTimer := false }

/-- From the hook, `handleAmountKeyDown`: on Enter, cancel the debounce
timer and `saveToHistory` (the subsequent `blur()` is a separate event). -/
def handleAmountKeyDown (isEnter : Bool) (s : CalcState) : CalcState :=
  if isEnter then saveToHistory { s with pendingTimer := false }
  else s

/-- From the hook, `resetCalculator`: save the current calculation when a
result is displayed, cancel the timer, then restore the defaults and
clear the refs (`lastSavedKeyRef` is not cleared by the source). -/
def resetCalculator (s : CalcState) : CalcState :=
  let s1 := if s.result.isSome then saveToHistory s else s
  { s1 with
    pendingTimer := false,
    amount := "",
    vatRate := DEFAULT_VAT_RATE,
    mode := CalculationMode.add,
    result := none,
    latestAmount := "",
    latestVatRate := DEFAULT_VAT_RATE,
    latestMode := CalculationMode.add,
    latestResult := none,
    lastValidResult := none }

/-- From the hook, `handleSetAmount`: reject input outside the grammar;
on clearing a non-empty field, commit the last valid result and cancel
the timer; on typing a new non-empty value, (re)schedule the auto-save. -/
def handleSetAmount (value : String) (s : CalcState) : CalcState :=
  if validInput value then
    let s0 := { s with latestAmount := value }
    if s0.amount ≠ "" ∧ value = "" then
      let s1 :=
        match s0.lastValidResult with
        | some rk => (saveCalculation rk.1 rk.2 s0).1
        | none => s0
      { s1 with
        pendingTimer := false,
        lastValidResult := none,
        latestResult := none,
        amount := value }
    else if value ≠ "" ∧ value ≠ s0.amount then
      { scheduleAutoSave s0 with amount := value }
    else
      { s0 with amount := value }
  else s

/-- From the hook, `handleSetVatRate`: reject input outside the grammar;
schedule an auto-save when the amount is non-empty and the rate changed. -/
def handleSetVatRate (value : String) (s : CalcState) : CalcState :=
  if validInput value then
    let s0 := { s with latestVatRate := value }
    if s0.amount ≠ "" ∧ value ≠ s0.vatRate then
      { scheduleAutoSave s0 with vatRate := value }
    else
      { s0 with vatRate := value }
  else s

/-- From the hook, `handleSetMode`: when the mode actually changes and
the amount is non-empty, commit the current result first (still under
the old mode), then switch the mode.  The source does not cancel a
pending debounce timer here. -/
def handleSetMode (newMode : CalculationMode) (s : CalcState) : CalcState :=
  let s1 := if newMode ≠ s.mode ∧ s.amount ≠ "" then saveToHistory s else s
  { s1 with latestMode := newMode, mode := newMode }

/-- A sample committed result, used to build concrete witness states:
the outcome of `addVat 100 7.5` at timestamp 0. -/
def sampleResult : CalculationResult :=
  ⟨CalculationMode.add, 15 / 2, 100, 15 / 2, 215 / 2, 0⟩

/-- A concrete controller state: amount `"100"` at the default rate in
add mode, `sampleResult` displayed and recorded as last valid, a debounce
timer pending, nothing saved yet. -/
def sampleState : CalcState :=
  ⟨"100", "7.5", CalculationMode.add, some sampleResult, none,
    some (sampleResult, createCalculationKey sampleResult CalculationMode.add),
    true, "100", "7.5", CalculationMode.add, some sampleResult, []⟩

/-- A concrete controller state whose amount field is empty (the hook's
initial state): nothing displayed, nothing saved, no timer. -/
def sampleEmptyState : CalcState :=
  ⟨"", "7.5", CalculationMode.add, none, none, none, false,
    "", "7.5", CalculationMode.add, none, []⟩

theorem roundTwo_int_div (k : ℤ) :
    roundToDecimal ((k : ℚ) / 100) 2 = (k : ℚ) / 100 := by
  have h1 : ((k : ℚ) / 100 + EPSILON) * 10 ^ 2 + 1 / 2
      = (100 * EPSILON + 1 / 2) + (k : ℚ) := by ring
  have h2 : ⌊(100 * EPSILON + 1 / 2 : ℚ)⌋ = 0 := by decide
  simp only [roundToDecimal, jsRound]
  rw [h1, Int.floor_add_int, h2]
  push_cast
  norm_num

theorem roundTwo_shape (x : ℚ) :
    ∃ k : ℤ, roundToDecimal x 2 = (k : ℚ) / 100 := by
  refine ⟨jsRound ((x + EPSILON) * 10 ^ 2), ?_⟩
  simp only [roundToDecimal]
  norm_num

theorem addVat_ok (price vatRate : ℚ) (now : ℤ)
    (h0 : 0 ≤ price) (h1 : 0 ≤ vatRate) (h2 : vatRate ≤ 100) :
    addVat price vatRate now = Except.ok
      ⟨CalculationMode.add, vatRate, roundToDecimal price 2,
        roundToDecimal (price * (vatRate / 100)) 2,
        roundToDecimal (roundToDecimal price 2 +
          roundToDecimal (price * (vatRate / 100)) 2) 2, now⟩ := by
  have hp : ¬ price < 0 := not_lt.2 h0
  have hr : ¬ (vatRate < 0 ∨ vatRate > 100) := by
    push_neg
    exact ⟨h1, h2⟩
  unfold addVat
  rw [if_neg hp, if_neg hr]

theorem extractVat_ok (total vatRate : ℚ) (now : ℤ)
    (h0 : 0 ≤ total) (h1 : 0 ≤ vatRate) (h2 : vatRate ≤ 100) :
    extractVat total vatRate now = Except.ok
      ⟨CalculationMode.extract, vatRate,
        roundToDecimal (total / (1 + vatRate / 100)) 2,
        roundToDecimal (roundToDecimal total 2 -
          roundToDecimal (total / (1 + vatRate / 100)) 2) 2,
        roundToDecimal total 2, now⟩ := by
  have hp : ¬ total < 0 := not_lt.2 h0
  have hr : ¬ (vatRate < 0 ∨ vatRate > 100) := by
    push_neg
    exact ⟨h1, h2⟩
  unfold extractVat
  rw [if_neg hp, if_neg hr]

/-- Claim C1: for every price (resp. total) at least 0 and every VAT rate in
[0, 100], the result of `addVat` (resp. `extractVat`) satisfies
`priceExcludingVat + vatAmount = priceIncludingVat` exactly to 2 decimals
(here: exactly, since every component is a whole number of cents). -/
theorem vat_additive_invariant (x vatRate : ℚ) (now : ℤ)
    (h0 : 0 ≤ x) (h1 : 0 ≤ vatRate) (h2 : vatRate ≤ 100) :
    (∃ r, addVat x vatRate now = Except.ok r ∧
      r.priceExcludingVat + r.vatAmount = r.priceIncludingVat) ∧
    (∃ r, extractVat x vatRate now = Except.ok r ∧
      r.priceExcludingVat + r.vatAmount = r.priceIncludingVat) := by
  obtain ⟨k1, e1⟩ := roundTwo_shape x
  constructor
  · refine ⟨_, addVat_ok x vatRate now h0 h1 h2, ?_⟩
    obtain ⟨k2, e2⟩ := roundTwo_shape (x * (vatRate / 100))
    show roundToDecimal x 2 + roundToDecimal (x * (vatRate / 100)) 2 =
      roundToDecimal (roundToDecimal x 2 +
        roundToDecimal (x * (vatRate / 100)) 2) 2
    rw [e1, e2]
    have hsum : (k1 : ℚ) / 100 + (k2 : ℚ) / 100 = ((k1 + k2 : ℤ) : ℚ) / 100 := by
      push_cast
      ring
    rw [hsum, roundTwo_int_div]
  · refine ⟨_, extractVat_ok x vatRate now h0 h1 h2, ?_⟩
    obtain ⟨k2, e2⟩ := roundTwo_shape (x / (1 + vatRate / 100))
    show roundToDecimal (x / (1 + vatRate / 100)) 2 +
      roundToDecimal (roundToDecimal x 2 -
        roundToDecimal (x / (1 + vatRate / 100)) 2) 2 = roundToDecimal x 2
    rw [e1, e2]
    have hsub : (k1 : ℚ) / 100 - (k2 : ℚ) / 100 = ((k1 - k2 : ℤ) : ℚ) / 100 := by
      push_cast
      ring
    rw [hsub, roundTwo_int_div]
    push_cast
    ring

/-- Witness for claim C1 at price 100 and rate 7.5. -/
theorem vat_additive_invariant_witness :
    (∃ r, addVat 100 (15 / 2) 0 = Except.ok r ∧
      r.priceExcludingVat + r.vatAmount = r.priceIncludingVat) ∧
    (∃ r, extractVat 100 (15 / 2) 0 = Except.ok r ∧
      r.priceExcludingVat + r.vatAmount = r.priceIncludingVat) :=
  vat_additive_invariant 100 (15 / 2) 0 (by norm_num) (by norm_num) (by norm_num)

/-- Claim C5: `addVat price vatRate` (resp. `extractVat total vatRate`)
raises an error if and only if the amount is negative or the rate is outside
[0, 100]; the only raised errors are the two InvalidArgument messages; and on
every input satisfying the preconditions both operations return normally. -/
theorem vat_error_characterization (x vatRate : ℚ) (now : ℤ) :
    ((∃ e, addVat x vatRate now = Except.error e) ↔
      (x < 0 ∨ vatRate < 0 ∨ vatRate > 100)) ∧
    ((∃ e, extractVat x vatRate now = Except.error e) ↔
      (x < 0 ∨ vatRate < 0 ∨ vatRate > 100)) ∧
    (∀ e, addVat x vatRate now = Except.error e →
      e = "Price cannot be negative" ∨
      e = "VAT rate must be between 0 and 100") ∧
    (∀ e, extractVat x vatRate now = Except.error e →
      e = "Total price cannot be negative" ∨
      e = "VAT rate must be between 0 and 100") ∧
    (¬ (x < 0 ∨ vatRate < 0 ∨ vatRate > 100) →
      (∃ r, addVat x vatRate now = Except.ok r) ∧
      (∃ r, extractVat x vatRate now = Except.ok r)) := by
  unfold addVat extractVat
  by_cases hx : x < 0 <;> by_cases hr : vatRate < 0 ∨ vatRate > 100 <;>
    simp [hx, hr]

/-- Witness for claim C5 at price -1 and rate 7.5. -/
theorem vat_error_characterization_witness :
    (∃ e, addVat (-1) (15 / 2) 0 = Except.error e) ↔
      ((-1 : ℚ) < 0 ∨ (15 / 2 : ℚ) < 0 ∨ (15 / 2 : ℚ) > 100) :=
  (vat_error_characterization (-1) (15 / 2) 0).1

/-- Claim C8: the worked scenarios hold exactly:
`addVat 100 7.5` yields 100.00 / 7.50 / 107.50; `addVat 99.99 7.5` yields
99.99 / 7.50 / 107.49 (the VAT is rounded once from the raw product
7.49925); `extractVat 12900 7.5` yields 12000.00 / 900.00 / 12900.00; and
`addVat 0.01 7.5` has VAT amount 0.00. -/
theorem worked_scenarios :
    (addVat 100 7.5 0).toOption =
      some ⟨CalculationMode.add, 7.5, 100, 7.5, 107.5, 0⟩ ∧
    (addVat 99.99 7.5 0).toOption =
      some ⟨CalculationMode.add, 7.5, 99.99, 7.5, 107.49, 0⟩ ∧
    (extractVat 12900 7.5 0).toOption =
      some ⟨CalculationMode.extract, 7.5, 12000, 900, 12900, 0⟩ ∧
    ((addVat 0.01 7.5 0).toOption).map CalculationResult.vatAmount = some 0 := by
  decide

/-- Claim C10: for every VAT rate in [0, 100], the divisor
`1 + vatRate / 100` used by `extractVat` is at least 1 and in particular
never zero, and `extractVat` returns a result on its whole non-error domain
(total at least 0, rate within [0, 100]). -/
theorem extract_divisor_wellDefined (total vatRate : ℚ) (now : ℤ)
    (h0 : 0 ≤ total) (h1 : 0 ≤ vatRate) (h2 : vatRate ≤ 100) :
    1 ≤ 1 + vatRate / 100 ∧ 1 + vatRate / 100 ≠ 0 ∧
    ∃ r, extractVat total vatRate now = Except.ok r := by
  have hd : (0 : ℚ) ≤ vatRate / 100 := div_nonneg h1 (by norm_num)
  refine ⟨by linarith, by positivity, ⟨_, extractVat_ok total vatRate now h0 h1 h2⟩⟩

/-- Witness for claim C10 at total 12900 and rate 7.5. -/
theorem extract_divisor_wellDefined_witness :
    1 ≤ 1 + (15 / 2 : ℚ) / 100 ∧ 1 + (15 / 2 : ℚ) / 100 ≠ 0 ∧
    ∃ r, extractVat 12900 (15 / 2) 0 = Except.ok r :=
  extract_divisor_wellDefined 12900 (15 / 2) 0 (by norm_num) (by norm_num)
    (by norm_num)

/-- Claim C9: the rounding vectors hold: `roundToDecimal (0.1 + 0.2) 2`
is exactly 0.30 even though the IEEE-754 double sum is not exactly 0.3;
`roundToDecimal 10.125 2 = 10.13`; and `roundToDecimal (-10.125) 2 = -10.12`. -/
theorem rounding_vectors :
    jsSumPointOnePointTwo ≠ 0.30 ∧
    roundToDecimal jsSumPointOnePointTwo 2 = 0.30 ∧
    roundToDecimal 10.125 2 = 10.13 ∧
    roundToDecimal (-10.125) 2 = -10.12 := by
  decide

/-- Counterexample to claim C4: `roundToDecimal` is not symmetric at
half-way values: `roundToDecimal (-10.125) 2 = -10.12`, which differs from
`-(roundToDecimal 10.125 2) = -10.13`. -/
theorem round_negative_symmetry_cex :
    roundToDecimal (-10.125) 2 ≠ -(roundToDecimal 10.125 2) := by
  decide

/-- Claim C4 as amended: `roundToDecimal` rounds half-way values toward
positive infinity (the `Math.round` convention), not away from zero.  For
every value `v` and decimals `n` with `10^n * EPSILON < 1/2`,
`roundToDecimal (-v) n` lies between `-(roundToDecimal v n)` and
`-(roundToDecimal v n) + 10⁻ⁿ` (so negatives agree with the mirrored
positive result except at half-way points, where they are one unit in the
last place above it); in particular `roundToDecimal (-10.125) 2 = -10.12`,
not -10.13, while `roundToDecimal 10.125 2 = 10.13`. -/
theorem round_half_toward_posinf :
    (∀ (v : ℚ) (n : ℕ), (10 : ℚ) ^ n * EPSILON < 1 / 2 →
      -(roundToDecimal v n) ≤ roundToDecimal (-v) n ∧
      roundToDecimal (-v) n ≤ -(roundToDecimal v n) + ((10 : ℚ) ^ n)⁻¹) ∧
    roundToDecimal (-10.125) 2 = -10.12 ∧
    roundToDecimal 10.125 2 = 10.13 := by
  refine ⟨?_, by decide, by decide⟩
  intro v n hn
  have hM : (0 : ℚ) < 10 ^ n := by positivity
  have hE : (0 : ℚ) < EPSILON := by norm_num [EPSILON]
  set M : ℚ := 10 ^ n with hMdef
  set A : ℚ := (v + EPSILON) * M + 1 / 2 with hA
  set B : ℚ := (-v + EPSILON) * M + 1 / 2 with hB
  have hAB : A + B = 2 * (M * EPSILON) + 1 := by
    rw [hA, hB]
    ring
  have hS0 : 0 ≤ ⌊A⌋ + ⌊B⌋ := by
    have h1 : A < ⌊A⌋ + 1 := Int.lt_floor_add_one A
    have h2 : B < ⌊B⌋ + 1 := Int.lt_floor_add_one B
    have h3 : ((⌊A⌋ + ⌊B⌋ : ℤ) : ℚ) > -1 := by
      push_cast
      nlinarith [mul_pos hM hE]
    have h4 : (⌊A⌋ + ⌊B⌋ : ℤ) > -1 := by exact_mod_cast h3
    omega
  have hS1 : ⌊A⌋ + ⌊B⌋ ≤ 1 := by
    have h1 : (⌊A⌋ : ℚ) ≤ A := Int.floor_le A
    have h2 : (⌊B⌋ : ℚ) ≤ B := Int.floor_le B
    have h3 : ((⌊A⌋ + ⌊B⌋ : ℤ) : ℚ) < 2 := by
      push_cast
      nlinarith
    have h4 : (⌊A⌋ + ⌊B⌋ : ℤ) < 2 := by exact_mod_cast h3
    omega
  have hround : roundToDecimal v n = (⌊A⌋ : ℚ) / M ∧
      roundToDecimal (-v) n = (⌊B⌋ : ℚ) / M := by
    constructor <;> simp only [roundToDecimal, jsRound, hA, hB, hMdef]
  rw [hround.1, hround.2]
  constructor
  · rw [← neg_div, div_le_div_iff_of_pos_right hM]
    have h5 : (0 : ℚ) ≤ (⌊A⌋ : ℚ) + (⌊B⌋ : ℚ) := by exact_mod_cast hS0
    linarith
  · rw [inv_eq_one_div, ← neg_div, div_add_div_same,
      div_le_div_iff_of_pos_right hM]
    have h5 : ((⌊A⌋ : ℚ)) + (⌊B⌋ : ℚ) ≤ 1 := by exact_mod_cast hS1
    linarith

/-- Witness for the amended claim C4 at value 10.125 and 2 decimals. -/
theorem round_half_toward_posinf_witness :
    -(roundToDecimal 10.125 2) ≤ roundToDecimal (-10.125) 2 ∧
    roundToDecimal (-10.125) 2 ≤ -(roundToDecimal 10.125 2) + ((10 : ℚ) ^ 2)⁻¹ :=
  round_half_toward_posinf.1 10.125 2 (by norm_num [EPSILON])

theorem addCalculation_length_le (c : CalculationResult)
    (h : List CalculationResult) (hl : h.length ≤ maxHistorySize) :
    (addCalculation c h).length ≤ maxHistorySize := by
  unfold addCalculation
  by_cases hgt : (c :: h).length > maxHistorySize
  · rw [if_pos hgt]
    simpa [List.length_dropLast] using hl
  · rw [if_neg hgt]
    simp at hgt
    simpa using hgt

/-- Claim C6: starting from any history of length at most the capacity
(10), `addCalculation` inserts the new entry at the front and, when the
bound would be exceeded, evicts exactly the oldest (tail) entry; hence for
every sequence of appends the length never exceeds 10, the newest entry is
first, and eviction is FIFO by insertion order. -/
theorem history_bounded_fifo :
    (∀ (c : CalculationResult) (h : List CalculationResult),
      h.length ≤ maxHistorySize →
      (addCalculation c h).length ≤ maxHistorySize ∧
      (addCalculation c h).head? = some c ∧
      (h.length < maxHistorySize → addCalculation c h = c :: h) ∧
      (h.length = maxHistorySize → addCalculation c h = c :: h.dropLast)) ∧
    (∀ (cs h : List CalculationResult),
      h.length ≤ maxHistorySize →
      (cs.foldl (fun acc c => addCalculation c acc) h).length ≤ maxHistorySize) := by
  constructor
  · intro c h hl
    refine ⟨addCalculation_length_le c h hl, ?_, ?_, ?_⟩
    · unfold addCalculation
      by_cases hgt : (c :: h).length > maxHistorySize
      · rw [if_pos hgt]
        rcases h with _ | ⟨x, t⟩
        · simp [maxHistorySize] at hgt
        · simp
      · rw [if_neg hgt]
        simp
    · intro hlt
      unfold addCalculation
      rw [if_neg (by simp; omega)]
    · intro heq
      unfold addCalculation
      rw [if_pos (by simp [heq])]
      rcases h with _ | ⟨x, t⟩
      · simp [maxHistorySize] at heq
      · simp
  · intro cs
    induction cs with
    | nil => intro h hl; simpa using hl
    | cons c cs ih =>
      intro h hl
      simpa using ih (addCalculation c h) (addCalculation_length_le c h hl)

/-- Witness for claim C6 on the empty history. -/
theorem history_bounded_fifo_witness :
    ((addCalculation sampleResult []).length ≤ maxHistorySize ∧
      (addCalculation sampleResult []).head? = some sampleResult ∧
      (([] : List CalculationResult).length < maxHistorySize →
        addCalculation sampleResult [] = [sampleResult]) ∧
      (([] : List CalculationResult).length = maxHistorySize →
        addCalculation sampleResult [] = sampleResult ::
          ([] : List CalculationResult).dropLast)) ∧
    ([sampleResult].foldl (fun acc c => addCalculation c acc) []).length ≤
      maxHistorySize := by
  have h := history_bounded_fifo
  exact ⟨h.1 sampleResult [] (by decide), h.2 [sampleResult] [] (by decide)⟩

/-- Claim C7: if either input field is empty, fails to parse, or parses
out of range (amount below 0 or rate outside [0, 100]), then
`performCalculation` attempts no calculation: the display result becomes
absent and nothing that could lead to a commit (history, last saved key,
last valid result) changes. -/
theorem validation_gate_blocks (now : ℤ) (s : CalcState)
    (h : parseDecimal s.amount = none ∨ parseDecimal s.vatRate = none ∨
      (∃ a, parseDecimal s.amount = some a ∧ a < 0) ∨
      (∃ rr, parseDecimal s.vatRate = some rr ∧ (rr < 0 ∨ 100 < rr)) ∨
      s.amount = "" ∨ s.vatRate = "") :
    (performCalculation now s).result = none ∧
    (performCalculation now s).history = s.history ∧
    (performCalculation now s).lastSavedKey = s.lastSavedKey ∧
    (performCalculation now s).lastValidResult = s.lastValidResult := by
  unfold performCalculation
  rcases hA : parseDecimal s.amount with _ | a
  · simp
  rcases hR : parseDecimal s.vatRate with _ | rr
  · simp
  have hcond : a < 0 ∨ rr < 0 ∨ rr > 100 ∨ s.amount = "" ∨ s.vatRate = "" := by
    rcases h with h | h | ⟨a2, ha2, hneg⟩ | ⟨r2, hr2, hbad⟩ | h | h
    · simp [hA] at h
    · simp [hR] at h
    · rw [hA] at ha2
      injection ha2 with e
      subst e
      exact Or.inl hneg
    · rw [hR] at hr2
      injection hr2 with e
      subst e
      rcases hbad with hbad | hbad
      · exact Or.inr (Or.inl hbad)
      · exact Or.inr (Or.inr (Or.inl hbad))
    · exact Or.inr (Or.inr (Or.inr (Or.inl h)))
    · exact Or.inr (Or.inr (Or.inr (Or.inr h)))
  dsimp only
  rw [if_pos hcond]
  simp

theorem saveCalculation_fst_pendingTimer (r : CalculationResult)
    (k : ContentKey) (s : CalcState) :
    (saveCalculation r k s).1.pendingTimer = s.pendingTimer := by
  unfold saveCalculation
  by_cases h : s.lastSavedKey = some k <;> simp [h]

theorem saveToHistory_pendingTimer (s : CalcState) :
    (saveToHistory s).pendingTimer = s.pendingTimer := by
  unfold saveToHistory
  cases hres : s.result with
  | none => rfl
  | some r =>
    cases hp : parseDecimal s.amount with
    | none => rfl
    | some a =>
      by_cases ha : a ≤ 0
      · simp [ha]
      · simp [ha, saveCalculation_fst_pendingTimer]

theorem saveToHistory_setTimer (s : CalcState) (b : Bool) :
    saveToHistory { s with pendingTimer := b } =
      { saveToHistory s with pendingTimer := b } := by
  unfold saveToHistory saveCalculation
  cases hres : s.result with
  | none => simp [hres]
  | some r =>
    cases hp : parseDecimal s.amount with
    | none => simp [hres, hp]
    | some a =>
      by_cases ha : a ≤ 0
      · simp [hres, hp, ha]
      · by_cases hk : s.lastSavedKey =
          some (createCalculationKey r s.mode)
        · simp [hres, hp, ha, hk]
        · simp [hres, hp, ha, hk]

/-- Claim C2: at every commit point, a candidate whose ContentKey equals
`lastSavedKey` is skipped as a no-op with the history unchanged; a result
whose source amount does not parse to a number strictly greater than zero
is never committed (`saveToHistory` and the debounce-timer callback refuse
it, and `performCalculation` records a last-valid candidate only for a
positive parsed amount); otherwise the result is appended and
`lastSavedKey` is set to the candidate's key — hence no two consecutive
commits carry equal ContentKeys. -/
theorem autosave_commit_policy (r : CalculationResult) (k : ContentKey)
    (s : CalcState) :
    (s.lastSavedKey = some k → saveCalculation r k s = (s, false)) ∧
    (s.lastSavedKey ≠ some k →
      saveCalculation r k s =
        ({ s with
            history := addCalculation r s.history,
            lastSavedKey := some k }, true)) ∧
    (∀ r2, (saveCalculation r2 k (saveCalculation r k s).1).1 =
      (saveCalculation r k s).1) ∧
    (parseDecimal s.amount = none → saveToHistory s = s) ∧
    (∀ a, parseDecimal s.amount = some a → a ≤ 0 → saveToHistory s = s) ∧
    (parseDecimal s.latestAmount = none →
      (timerFire s).history = s.history ∧
      (timerFire s).lastSavedKey = s.lastSavedKey) ∧
    (∀ a, parseDecimal s.latestAmount = some a → a ≤ 0 →
      (timerFire s).history = s.history ∧
      (timerFire s).lastSavedKey = s.lastSavedKey) ∧
    (∀ now, (performCalculation now s).lastValidResult = s.lastValidResult ∨
      ∃ r2 a, parseDecimal s.amount = some a ∧ 0 < a ∧
        (performCalculation now s).lastValidResult =
          some (r2, createCalculationKey r2 s.mode)) := by
  refine ⟨?_, ?_, ?_, ?_, ?_, ?_, ?_, ?_⟩
  · intro h
    unfold saveCalculation
    rw [if_pos h]
  · intro h
    unfold saveCalculation
    rw [if_neg h]
  · intro r2
    by_cases h : s.lastSavedKey = some k <;> simp [saveCalculation, h]
  · intro hp
    unfold saveToHistory
    cases hres : s.result with
    | none => rfl
    | some r2 => simp [hp]
  · intro a hp ha
    unfold saveToHistory
    cases hres : s.result with
    | none => rfl
    | some r2 => simp [hp, ha]
  · intro hp
    unfold timerFire
    by_cases hpt : s.pendingTimer = false
    · simp [hpt]
    · cases hlr : s.latestResult with
      | none => simp [hpt, hlr]
      | some r2 => simp [hpt, hlr, hp]
  · intro a hp ha
    unfold timerFire
    by_cases hpt : s.pendingTimer = false
    · simp [hpt]
    · cases hlr : s.latestResult with
      | none => simp [hpt, hlr]
      | some r2 => simp [hpt, hlr, hp, ha]
  · intro now
    unfold performCalculation
    rcases hA : parseDecimal s.amount with _ | a
    · simp
    rcases hR : parseDecimal s.vatRate with _ | rr
    · simp
    dsimp only
    by_cases hcond : a < 0 ∨ rr < 0 ∨ rr > 100 ∨ s.amount = "" ∨ s.vatRate = ""
    · rw [if_pos hcond]
      simp
    · rw [if_neg hcond]
      rcases hcv : calculateVat a rr s.mode now with e | cr
      · simp
      · by_cases hpos : a > 0
        · right
          refine ⟨cr, a, rfl, hpos, ?_⟩
          simp [hpos]
        · left
          simp [hpos]

/-- Witness for claim C2: a fresh commit on `sampleState`. -/
theorem autosave_commit_policy_witness :
    saveCalculation sampleResult
        (createCalculationKey sampleResult CalculationMode.add) sampleState =
      ({ sampleState with
          history := addCalculation sampleResult sampleState.history,
          lastSavedKey :=
            some (createCalculationKey sampleResult CalculationMode.add) },
        true) :=
  (autosave_commit_policy sampleResult
    (createCalculationKey sampleResult CalculationMode.add) sampleState).2.1
    (by decide)

/-- Counterexample to claim C3: after a mode change on `sampleState`
(amount non-empty, a debounce timer pending), the debounce timer is still
pending — `handleSetMode` does not cancel it. -/
theorem mode_change_timer_cex :
    ¬ ((handleSetMode CalculationMode.extract sampleState).pendingTimer
        = false) := by
  decide

/-- Claim C3 as amended: upon blur, Enter, amount-cleared (was
non-empty), and reset, the controller immediately commits the pending
valid result (subject to the commit-eligibility policy) and cancels any
outstanding debounce timer; upon a mode change it immediately commits the
current result under the OLD mode before switching, but it does not cancel
an outstanding debounce timer (the timer's pending status is unchanged). -/
theorem immediate_commit_events (s : CalcState) (m : CalculationMode) :
    ((handleAmountBlur s).pendingTimer = false ∧
      (handleAmountBlur s).history = (saveToHistory s).history ∧
      (handleAmountBlur s).lastSavedKey = (saveToHistory s).lastSavedKey) ∧
    handleAmountKeyDown true s = handleAmountBlur s ∧
    (s.amount ≠ "" →
      (handleSetAmount "" s).pendingTimer = false ∧
      (handleSetAmount "" s).history =
        (match s.lastValidResult with
          | some rk => (saveCalculation rk.1 rk.2 s).1.history
          | none => s.history)) ∧
    ((resetCalculator s).pendingTimer = false ∧
      (s.result.isSome = true →
        (resetCalculator s).history = (saveToHistory s).history)) ∧
    ((handleSetMode m s).mode = m ∧
      (handleSetMode m s).pendingTimer = s.pendingTimer ∧
      (m ≠ s.mode ∧ s.amount ≠ "" →
        (handleSetMode m s).history = (saveToHistory s).history ∧
        (handleSetMode m s).lastSavedKey =
          (saveToHistory s).lastSavedKey)) := by
  refine ⟨?_, ?_, ?_, ?_, ?_⟩
  · unfold handleAmountBlur
    rw [saveToHistory_setTimer]
    simp
  · simp [handleAmountKeyDown, handleAmountBlur]
  · intro h
    unfold handleSetAmount
    rw [if_pos (by decide : validInput "" = true)]
    rw [if_pos ?_]
    swap
    · exact ⟨h, rfl⟩
    cases hlv : s.lastValidResult with
    | none => simp [hlv]
    | some rk =>
      unfold saveCalculation
      by_cases hk : s.lastSavedKey = some rk.2 <;> simp [hlv, hk]
  · constructor
    · rfl
    · intro h
      simp [resetCalculator, h]
  · refine ⟨rfl, ?_, ?_⟩
    · unfold handleSetMode
      by_cases hc : m ≠ s.mode ∧ s.amount ≠ "" <;>
        simp [hc, saveToHistory_pendingTimer]
    · intro hc
      unfold handleSetMode
      rw [if_pos hc]
      simp

/-- Witness for the amended claim C3: a mode change on `sampleState`
commits under the old mode. -/
theorem immediate_commit_events_witness :
    (handleSetMode CalculationMode.extract sampleState).history =
      (saveToHistory sampleState).history ∧
    (handleSetMode CalculationMode.extract sampleState).lastSavedKey =
      (saveToHistory sampleState).lastSavedKey :=
  ((immediate_commit_events sampleState
    CalculationMode.extract).2.2.2.2).2.2 ⟨by decide, by decide⟩

/-- Witness for claim C7 on the empty-amount state. -/
theorem validation_gate_blocks_witness :
    (performCalculation 0 sampleEmptyState).result = none ∧
    (performCalculation 0 sampleEmptyState).history =
      sampleEmptyState.history ∧
    (performCalculation 0 sampleEmptyState).lastSavedKey =
      sampleEmptyState.lastSavedKey ∧
    (performCalculation 0 sampleEmptyState).lastValidResult =
      sampleEmptyState.lastValidResult :=
  validation_gate_blocks 0 sampleEmptyState (Or.inl (by decide))
